import Mathlib

set_option maxHeartbeats 1000000

/-!
Shallow embedding of the `prisma-swagger-autogen` schema-generation core.

The repository contains two variants of the generator:
* the primary module `src/src/index.ts` (embedded below in namespace `Primary`),
  which registers schemas under the `@schemas` components key and therefore
  emits references of the form `#/components/@schemas/<Name>`;
* a later variant (embedded in namespace `Variant`) which registers schemas
  under `schemas`, emits `#/components/schemas/<Name>` references, adds fixed
  error-response schemas and synthesizes examples for request schemas.

JavaScript objects are modelled as insertion-ordered association lists
(`List (String × _)`), assignment as `insertAssoc` (replace-in-place or
append), and an absent key as `Option.none`.  `JSON.parse(JSON.stringify(x))`
is the identity on this immutable data, so deep copies disappear in the
embedding.
-/

/-- JSON values; used to model the `example : any` field of schemas. -/
inductive JsonVal where
  | null
  | bool (b : Bool)
  | num (n : Int)
  | str (s : String)
  | arr (elems : List JsonVal)
  | obj (fields : List (String × JsonVal))
deriving Repr

/-- The `OpenApiSchema` record of the source, with exactly the keys the
generator ever writes.  A missing key is `none`.  (`$ref` is called `ref`,
`enum` is `enumVals`, `example` is `exampleVal`.) -/
inductive Schema where
  | mk (type : Option String)
       (format : Option String)
       (required : Option (List String))
       (properties : Option (List (String × Schema)))
       (items : Option Schema)
       (enumVals : Option (List String))
       (exampleVal : Option JsonVal)
       (ref : Option String)
       (allOf : Option (List Schema))
deriving Repr

def Schema.type : Schema → Option String
  | .mk t _ _ _ _ _ _ _ _ => t

def Schema.format : Schema → Option String
  | .mk _ f _ _ _ _ _ _ _ => f

def Schema.required : Schema → Option (List String)
  | .mk _ _ r _ _ _ _ _ _ => r

def Schema.properties : Schema → Option (List (String × Schema))
  | .mk _ _ _ p _ _ _ _ _ => p

def Schema.items : Schema → Option Schema
  | .mk _ _ _ _ i _ _ _ _ => i

def Schema.enumVals : Schema → Option (List String)
  | .mk _ _ _ _ _ e _ _ _ => e

def Schema.exampleVal : Schema → Option JsonVal
  | .mk _ _ _ _ _ _ e _ _ => e

def Schema.ref : Schema → Option String
  | .mk _ _ _ _ _ _ _ r _ => r

def Schema.allOf : Schema → Option (List Schema)
  | .mk _ _ _ _ _ _ _ _ a => a

/-- `{ type: t }` -/
def Schema.typed (t : String) : Schema :=
  .mk (some t) none none none none none none none none

/-- `{ type: t, format: f }` -/
def Schema.typedFmt (t f : String) : Schema :=
  .mk (some t) (some f) none none none none none none none

/-- `{ type: t, example: e }` -/
def Schema.typedEx (t : String) (e : JsonVal) : Schema :=
  .mk (some t) none none none none none (some e) none none

/-- `{ $ref: r }` -/
def Schema.refS (r : String) : Schema :=
  .mk none none none none none none none (some r) none

/-- `{ type: 'array', items: s }` -/
def Schema.arrayOf (s : Schema) : Schema :=
  .mk (some "array") none none none (some s) none none none none

/-- JS object assignment `o[k] = v`: replace the existing entry in place,
otherwise append at the end. -/
def insertAssoc {α : Type} (k : String) (v : α) : List (String × α) → List (String × α)
  | [] => [(k, v)]
  | (k', v') :: rest => if k' = k then (k, v) :: rest else (k', v') :: insertAssoc k v rest

/-- JS object read `o[k]`. -/
def lookupA {α : Type} (k : String) : List (String × α) → Option α
  | [] => none
  | (k', v) :: rest => if k' = k then some v else lookupA k rest

/-- `Object.keys`. -/
def keysOf {α : Type} (l : List (String × α)) : List String :=
  l.map Prod.fst

/-- Char-level model of JS `r.split('/')`. -/
def splitSegs : List Char → List (List Char)
  | [] => [[]]
  | c :: rest =>
      if c = '/' then [] :: splitSegs rest
      else
        match splitSegs rest with
        | [] => [[c]]
        | s :: ss => (c :: s) :: ss

/-- Model of JS `r.split('/').pop() || ''` (the final path segment). -/
def lastSeg (r : String) : String :=
  String.mk ((splitSegs r.data).getLastD [])

/-- Model of JS `name.endsWith('s')`: the last character is `'s'`. -/
def endsWithS (name : String) : Bool :=
  name.data.getLastD ' ' == 's'

/-- `pluralize` (identical in both variants). -/
def pluralize (name : String) : String :=
  if endsWithS name then name ++ "es" else name ++ "s"

/-- Model of JS `s.startsWith(p)`. -/
def strStarts (p s : String) : Bool :=
  p.data.isPrefixOf s.data

/-- Model of JS `s.endsWith(p)`. -/
def strEnds (p s : String) : Bool :=
  p.data.isSuffixOf s.data

/-- A DMMF field (`kind` is kept as a raw string: the primary module types
fields as `any`, so kinds other than `scalar`/`enum`/`object` can occur). -/
structure DmmfField where
  name : String
  kind : String
  type : String
  isRequired : Bool
  isList : Bool
deriving Repr, DecidableEq

structure DmmfModel where
  name : String
  fields : List DmmfField
deriving Repr, DecidableEq

structure DmmfEnumValue where
  name : String
deriving Repr, DecidableEq

structure DmmfEnum where
  name : String
  values : List DmmfEnumValue
deriving Repr, DecidableEq

structure DmmfDatamodel where
  models : List DmmfModel
  enums : List DmmfEnum
deriving Repr, DecidableEq

structure Dmmf where
  datamodel : DmmfDatamodel
deriving Repr, DecidableEq

/-- `scalarToSchema` (identical in both variants). -/
def scalarToSchema (scalar : String) : Schema :=
  match scalar with
  | "String" => Schema.typed "string"
  | "Boolean" => Schema.typed "boolean"
  | "Int" => Schema.typed "integer"
  | "BigInt" => Schema.typedFmt "integer" "int64"
  | "Float" => Schema.typed "number"
  | "Decimal" => Schema.typed "number"
  | "DateTime" => Schema.typedFmt "string" "date-time"
  | "Json" => Schema.typed "object"
  | "Bytes" => Schema.typedFmt "string" "byte"
  | _ => Schema.typed "string"

/-- `fieldSchema`, parametrized by the components path `base` under which the
variant registers its schemas (`#/components/@schemas/` in the primary module,
`#/components/schemas/` in the later variant); otherwise both bodies are
identical. -/
def fieldSchemaAt (base : String) (field : DmmfField) (getRefName : String → String) : Schema :=
  if field.kind = "scalar" then
    let base' := scalarToSchema field.type
    if field.isList then Schema.arrayOf base' else base'
  else if field.kind = "enum" then
    let b := Schema.refS (base ++ field.type)
    if field.isList then Schema.arrayOf b else b
  else if field.kind = "object" then
    let r := Schema.refS (base ++ getRefName field.type)
    if field.isList then Schema.arrayOf r else r
  else Schema.typed "object"

/-- `modelToGetSchema` (identical in both variants up to the `fieldSchema` it
calls, hence parametrized by `base` like `fieldSchemaAt`).  The single loop
filling `properties` and pushing required names is modelled as one fold over
a pair. -/
def modelToGetSchemaAt (base : String) (model : DmmfModel) (getRefName : String → String) : Schema :=
  let res := model.fields.foldl
    (fun (acc : List (String × Schema) × List String) f =>
      (insertAssoc f.name (fieldSchemaAt base f getRefName) acc.1,
       if f.isRequired then acc.2 ++ [f.name] else acc.2))
    ([], [])
  Schema.mk (some "object") none
    (if res.2.length = 0 then none else some res.2)
    (some res.1) none none none none none

/-- `stripWriteFields` (identical in both variants).  The initial
`JSON.parse(JSON.stringify(getSchema))` deep copy is the identity here. -/
def stripWriteFields (model : DmmfModel) (getSchema : Schema) (omitSet : List String) : Schema :=
  match getSchema with
  | .mk t f req props its en ex r ao =>
    match props with
    | none => Schema.mk t f req props its en ex r ao
    | some ps =>
      let relationFieldNames := (model.fields.filter (fun fl => fl.kind = "object")).map (·.name)
      let ps' := ps.filter (fun kv => ¬ (omitSet.contains kv.1 ∨ relationFieldNames.contains kv.1))
      let req' : Option (List String) :=
        match req with
        | some rs =>
          let rs' := rs.filter (fun k => ¬ omitSet.contains k ∧ ¬ relationFieldNames.contains k)
          if rs'.length = 0 then none else some rs'
        | none => none
      Schema.mk t f req' (some ps') its en ex r ao

/-- `makeAllOptional` (identical in both variants): deep copy with the
`required` key deleted. -/
def makeAllOptional (schema : Schema) : Schema :=
  match schema with
  | .mk t f _ props its en ex r ao => Schema.mk t f none props its en ex r ao

/-- The `getRefName` closure of both build functions: `Get<Model>Response`. -/
def getRefName (modelName : String) : String :=
  "Get" ++ modelName ++ "Response"

/-- The CLI entry point (`src/src/cli.ts`): a rejected `run` promise prints
the error and sets `process.exitCode = 1`; success leaves exit code 0. -/
def cliExitCode {α : Type} : Except String α → Nat
  | .error _ => 1
  | .ok _ => 0

namespace Variant

/-- `CONFIG.omitFieldsInWriteDtos` of the later variant. -/
def OMIT_FIELDS : List String := ["id", "createdAt", "updatedAt", "v"]

/-- `fieldSchema` of the later variant (refs under `#/components/schemas/`). -/
def fieldSchema (field : DmmfField) (g : String → String) : Schema :=
  fieldSchemaAt "#/components/schemas/" field g

/-- `modelToGetSchema` of the later variant. -/
def modelToGetSchema (model : DmmfModel) (g : String → String) : Schema :=
  modelToGetSchemaAt "#/components/schemas/" model g

/-- `listResponseSchema` of the later variant (its pagination properties carry
literal examples). -/
def listResponseSchema (itemRef : String) : Schema :=
  Schema.mk (some "object") none
    (some ["count", "hasPreviousPage", "hasNextPage", "pageNumber", "pageSize", "totalPages", "items"])
    (some [("count", Schema.typedEx "number" (JsonVal.num 3)),
           ("hasPreviousPage", Schema.typedEx "boolean" (JsonVal.bool false)),
           ("hasNextPage", Schema.typedEx "boolean" (JsonVal.bool true)),
           ("pageNumber", Schema.typedEx "number" (JsonVal.num 1)),
           ("pageSize", Schema.typedEx "number" (JsonVal.num 10)),
           ("totalPages", Schema.typedEx "number" (JsonVal.num 1)),
           ("items", Schema.arrayOf (Schema.refS itemRef))])
    none none none none none

/-- `exampleForScalarType`; `new Date(0).toISOString()` is the fixed epoch
timestamp. -/
def exampleForScalarType (type : String) (format : Option String) : JsonVal :=
  if type = "string" ∧ format = some "date-time" then JsonVal.str "1970-01-01T00:00:00.000Z"
  else
    match type with
    | "string" => JsonVal.str "string"
    | "integer" => JsonVal.num 0
    | "number" => JsonVal.num 0
    | "boolean" => JsonVal.bool true
    | "object" => JsonVal.obj []
    | _ => JsonVal.null

/-- `Object.assign(target, source)` on JSON objects. -/
def assignAll (target source : List (String × JsonVal)) : List (String × JsonVal) :=
  source.foldl (fun acc kv => insertAssoc kv.1 kv.2 acc) target

/-- `buildExampleFromSchema` with the `depth` counter replaced by the
remaining budget `3 - depth`: the source returns `undefined` whenever
`depth > 2` (budget `0`) and recurses with `depth + 1` (budget minus one);
the branch cascade mirrors the source's sequence of early returns. -/
def buildExampleFuel (components : List (String × Schema)) : Nat → Schema → Option JsonVal
  | 0, _ => none
  | fuel + 1, schema =>
    match schema.ref with
    | some r =>
      match lookupA (lastSeg r) components with
      | none => none
      | some target => buildExampleFuel components fuel target
    | none =>
      match schema.allOf with
      | some (p :: ps) =>
        let merged := (p :: ps).foldl
          (fun acc part =>
            match buildExampleFuel components fuel part with
            | some (JsonVal.obj kvs) => assignAll acc kvs
            | _ => acc)
          []
        if merged.length = 0 then none else some (JsonVal.obj merged)
      | _ =>
        match schema.type, schema.items with
        | some "array", some it =>
          (match buildExampleFuel components fuel it with
           | none => some (JsonVal.arr [])
           | some item => some (JsonVal.arr [item]))
        | ty, _ =>
          match ty, schema.properties with
          | some "object", some props =>
            some (JsonVal.obj (props.foldl
              (fun acc kv =>
                match buildExampleFuel components fuel kv.2 with
                | none => acc
                | some ex => insertAssoc kv.1 ex acc)
              []))
          | ty2, _ =>
            match schema.enumVals with
            | some (v :: _) => some (JsonVal.str v)
            | _ =>
              match ty2 with
              | some t => some (exampleForScalarType t schema.format)
              | none => none

/-- `buildExampleFromSchema(schema, components, depth)`. -/
def buildExampleFromSchema (schema : Schema) (components : List (String × Schema)) (depth : Nat) : Option JsonVal :=
  buildExampleFuel components (3 - depth) schema

/-- `attachExample`: deep copy, then set `example` from
`buildExampleFromSchema` at depth 0 unless one is already present. -/
def attachExample (schema : Schema) (components : List (String × Schema)) : Schema :=
  match schema with
  | .mk t f r p i e ex rf ao =>
    match ex with
    | some _ => Schema.mk t f r p i e ex rf ao
    | none =>
      match buildExampleFromSchema (Schema.mk t f r p i e none rf ao) components 0 with
      | none => Schema.mk t f r p i e none rf ao
      | some exv => Schema.mk t f r p i e (some exv) rf ao

/-- The enum loop body of `buildSchemasFromDmmf`:
`{ type: 'string', enum: e.values.map(v => v.name) }`. -/
def enumSchema (e : DmmfEnum) : Schema :=
  Schema.mk (some "string") none none none none (some (e.values.map (·.name))) none none none

/-- The model loop body of `buildSchemasFromDmmf`: insert the four derived
schemas under their generated names. -/
def insertModel (acc : List (String × Schema)) (model : DmmfModel) : List (String × Schema) :=
  let getName := "Get" ++ model.name ++ "Response"
  let postName := "Post" ++ model.name ++ "Request"
  let putName := "Put" ++ model.name ++ "Request"
  let listName := "List" ++ pluralize model.name ++ "Response"
  let getSchema := modelToGetSchema model getRefName
  let postSchema := stripWriteFields model getSchema OMIT_FIELDS
  let putSchema := makeAllOptional postSchema
  insertAssoc listName (listResponseSchema ("#/components/schemas/" ++ getName))
    (insertAssoc putName putSchema
      (insertAssoc postName postSchema
        (insertAssoc getName getSchema acc)))

/-- The fixed `ExceptionResponse` schema. -/
def exceptionResponseSchema : Schema :=
  Schema.mk (some "object") none (some ["status", "title", "type"])
    (some [("detail", Schema.typed "string"),
           ("errors", Schema.arrayOf (Schema.typed "string")),
           ("status", Schema.typed "number"),
           ("title", Schema.typed "string"),
           ("type", Schema.typed "string")])
    none none none none none

/-- The fixed `BadRequestResponse` schema. -/
def badRequestResponseSchema : Schema :=
  Schema.mk none none none none none none
    (some (JsonVal.obj
      [("status", JsonVal.num 400),
       ("title", JsonVal.str "The request was invalid"),
       ("type", JsonVal.str "https://tools.ietf.org/html/rfc7231#section-6.5.1")]))
    none (some [Schema.refS "#/components/schemas/ExceptionResponse"])

/-- The fixed `NotFoundResponse` schema. -/
def notFoundResponseSchema : Schema :=
  Schema.mk none none none none none none
    (some (JsonVal.obj
      [("status", JsonVal.num 404),
       ("title", JsonVal.str "The specified resource was not found"),
       ("type", JsonVal.str "https://datatracker.ietf.org/doc/html/rfc7231#section-6.5.4")]))
    none (some [Schema.refS "#/components/schemas/ExceptionResponse"])

/-- The fixed `InternalErrorResponse` schema. -/
def internalErrorResponseSchema : Schema :=
  Schema.mk none none none none none none
    (some (JsonVal.obj
      [("status", JsonVal.num 500),
       ("title", JsonVal.str "An error occurred while processing your request"),
       ("type", JsonVal.str "https://tools.ietf.org/html/rfc7231#section-6.6.1")]))
    none (some [Schema.refS "#/components/schemas/ExceptionResponse"])

/-- One step of the final example-attaching loop.  The source reassigns
`schemas[name]` while iterating `Object.keys(schemas)`, each lookup seeing the
updates already made, which the fold over the accumulated map reproduces. -/
def attachStep (acc : List (String × Schema)) (name : String) : List (String × Schema) :=
  let acc1 :=
    if strStarts "Post" name && strEnds "Request" name then
      match lookupA name acc with
      | some s => insertAssoc name (attachExample s acc) acc
      | none => acc
    else acc
  if strStarts "Put" name && strEnds "Request" name then
    match lookupA name acc1 with
    | some s => insertAssoc name (attachExample s acc1) acc1
    | none => acc1
  else acc1

/-- `buildSchemasFromDmmf` of the later variant. -/
def buildSchemasFromDmmf (dmmf : Dmmf) : List (String × Schema) :=
  let schemas : List (String × Schema) := []
  let schemas := dmmf.datamodel.enums.foldl (fun acc e => insertAssoc e.name (enumSchema e) acc) schemas
  let schemas := dmmf.datamodel.models.foldl insertModel schemas
  let schemas := insertAssoc "ExceptionResponse" exceptionResponseSchema schemas
  let schemas := insertAssoc "BadRequestResponse" badRequestResponseSchema schemas
  let schemas := insertAssoc "NotFoundResponse" notFoundResponseSchema schemas
  let schemas := insertAssoc "InternalErrorResponse" internalErrorResponseSchema schemas
  (keysOf schemas).foldl attachStep schemas

/-- `loadDmmfFromProject` of the later variant.  Node plumbing is abstracted:
`fsExists` models `fs.existsSync`, `readF` models `fs.readFileSync`,
`getDMMF?` models the dynamically imported Prisma runtime capability (`none`
when neither runtime import exposes `getDMMF`, collapsing the two
import-failure messages into the capability-missing one), its `Option` result
models the final DMMF shape check, and `schemaPath` is the already-resolved
`path.resolve(process.cwd(), 'prisma/schema.prisma')`. -/
def loadDmmfFromProject (fsExists : String → Bool) (readF : String → String)
    (getDMMF? : Option (String → Option Dmmf)) (schemaPath : String) : Except String Dmmf :=
  if !fsExists schemaPath then
    Except.error ("Prisma schema not found at: " ++ schemaPath)
  else
    match getDMMF? with
    | none => Except.error "Prisma runtime does not expose getDMMF(). Your Prisma version may be incompatible."
    | some g =>
      match g (readF schemaPath) with
      | none => Except.error "Failed to load Prisma DMMF. Prisma returned an unexpected structure."
      | some dmmf => Except.ok dmmf

/-- The later variant's `run`: load the DMMF, then build the schema
collection (the subsequent `generateSwaggerConfigJs` file write is the output
step; on an error nothing is produced). -/
def runPipeline (fsExists : String → Bool) (readF : String → String)
    (getDMMF? : Option (String → Option Dmmf)) (schemaPath : String) :
    Except String (List (String × Schema)) :=
  match loadDmmfFromProject fsExists readF getDMMF? schemaPath with
  | .error e => .error e
  | .ok dmmf => .ok (buildSchemasFromDmmf dmmf)

end Variant

namespace Primary

/-- `DEFAULT_CONFIG.omitFieldsInWriteDtos` of the primary module. -/
def DEFAULT_OMIT_FIELDS : List String := ["id", "createdAt", "updatedAt", "v"]

/-- `fieldSchema` of the primary module (refs under `#/components/@schemas/`,
matching the `"@schemas"` components key it emits). -/
def fieldSchema (field : DmmfField) (g : String → String) : Schema :=
  fieldSchemaAt "#/components/@schemas/" field g

/-- `modelToGetSchema` of the primary module. -/
def modelToGetSchema (model : DmmfModel) (g : String → String) : Schema :=
  modelToGetSchemaAt "#/components/@schemas/" model g

/-- `listResponseSchema` of the primary module (no literal examples). -/
def listResponseSchema (itemRef : String) : Schema :=
  Schema.mk (some "object") none
    (some ["count", "hasPreviousPage", "hasNextPage", "pageNumber", "pageSize", "totalPages", "items"])
    (some [("count", Schema.typed "number"),
           ("hasPreviousPage", Schema.typed "boolean"),
           ("hasNextPage", Schema.typed "boolean"),
           ("pageNumber", Schema.typed "number"),
           ("pageSize", Schema.typed "number"),
           ("totalPages", Schema.typed "number"),
           ("items", Schema.arrayOf (Schema.refS itemRef))])
    none none none none none

/-- The enum loop body of `buildSchemasFromPrismaDmmf`. -/
def enumSchema (e : DmmfEnum) : Schema :=
  Schema.mk (some "string") none none none none (some (e.values.map (·.name))) none none none

/-- The model loop body of `buildSchemasFromPrismaDmmf` (omit-set taken from
`cfg.omitFieldsInWriteDtos`). -/
def insertModel (omitSet : List String) (acc : List (String × Schema)) (model : DmmfModel) : List (String × Schema) :=
  let getName := "Get" ++ model.name ++ "Response"
  let postName := "Post" ++ model.name ++ "Request"
  let putName := "Put" ++ model.name ++ "Request"
  let listName := "List" ++ pluralize model.name ++ "Response"
  let getSchema := modelToGetSchema model getRefName
  let postSchema := stripWriteFields model getSchema omitSet
  let putSchema := makeAllOptional postSchema
  insertAssoc listName (listResponseSchema ("#/components/@schemas/" ++ getName))
    (insertAssoc putName putSchema
      (insertAssoc postName postSchema
        (insertAssoc getName getSchema acc)))

/-- The pure part of `buildSchemasFromPrismaDmmf`: build the schema collection
from an already-loaded DMMF. -/
def buildSchemas (omitSet : List String) (dmmf : Dmmf) : List (String × Schema) :=
  let schemas : List (String × Schema) := []
  let schemas := dmmf.datamodel.enums.foldl (fun acc e => insertAssoc e.name (enumSchema e) acc) schemas
  dmmf.datamodel.models.foldl (insertModel omitSet) schemas

/-- `loadDmmfFromProject` of the primary module (same abstraction of the Node
plumbing as in the later variant; `resolvedSchemaPath` is the
already-resolved schema path). -/
def loadDmmfFromProject (fsExists : String → Bool) (readF : String → String)
    (getDMMF? : Option (String → Option Dmmf)) (resolvedSchemaPath : String) : Except String Dmmf :=
  if !fsExists resolvedSchemaPath then
    Except.error ("Prisma schema not found at " ++ resolvedSchemaPath)
  else
    match getDMMF? with
    | none => Except.error "@prisma/internals.getDMMF not available"
    | some g =>
      match g (readF resolvedSchemaPath) with
      | none => Except.error "Unexpected DMMF shape returned by @prisma/internals.getDMMF"
      | some dmmf => Except.ok dmmf

/-- `buildSchemasFromPrismaDmmf` followed by the config generation: load the
DMMF, then build the schema collection; an error leaves no output. -/
def runPipeline (fsExists : String → Bool) (readF : String → String)
    (getDMMF? : Option (String → Option Dmmf)) (omitSet : List String) (resolvedSchemaPath : String) :
    Except String (List (String × Schema)) :=
  match loadDmmfFromProject fsExists readF getDMMF? resolvedSchemaPath with
  | .error e => .error e
  | .ok dmmf => .ok (buildSchemas omitSet dmmf)

end Primary

/-! ### Collecting the `$ref` strings occurring anywhere in a schema -/

mutual

/-- All `$ref` strings occurring in a schema (in its own `$ref` key, its
`items`, its `allOf` branches and its `properties`, recursively).  `example`
holds only JSON values, never schemas, so no references live there. -/
def Schema.refs : Schema → List String
  | .mk _ _ _ props its _ _ r ao =>
    (match r with | some s => [s] | none => []) ++
    (match its with | some s => Schema.refs s | none => []) ++
    (match ao with | some ss => refsList ss | none => []) ++
    (match props with | some ps => refsProps ps | none => [])

def refsList : List Schema → List String
  | [] => []
  | s :: ss => Schema.refs s ++ refsList ss

def refsProps : List (String × Schema) → List String
  | [] => []
  | (_, s) :: ps => Schema.refs s ++ refsProps ps

end

/-- All `$ref` strings occurring anywhere in a schema collection. -/
def allRefs (l : List (String × Schema)) : List String :=
  refsProps l

/-! ### Concrete inputs used by witnesses and counterexamples -/

/-- The worked example of the spec: one required scalar, one optional enum,
one optional relation. -/
def specModel : DmmfModel :=
  ⟨"Item", [⟨"id", "scalar", "String", true, false⟩,
            ⟨"tag", "enum", "Status", false, false⟩,
            ⟨"owner", "object", "User", false, false⟩]⟩

/-- Two models whose names exercise both pluralization branches. -/
def demoDmmf : Dmmf :=
  ⟨⟨[⟨"Tag", [⟨"id", "scalar", "String", true, false⟩]⟩,
     ⟨"Status", [⟨"name", "scalar", "String", false, false⟩]⟩],
    []⟩⟩

/-- A single model named `User`. -/
def userDmmf : Dmmf :=
  ⟨⟨[⟨"User", [⟨"id", "scalar", "String", true, false⟩]⟩], []⟩⟩

/-- A model with an enum field and a self-referencing relation field. -/
def relDmmf : Dmmf :=
  ⟨⟨[⟨"User", [⟨"id", "scalar", "String", true, false⟩,
               ⟨"tag", "enum", "Status", false, false⟩,
               ⟨"owner", "object", "User", false, true⟩]⟩],
    [⟨"Status", [⟨"ACTIVE"⟩, ⟨"DONE"⟩]⟩]⟩⟩

/-- A self-referencing component collection (`A` refers to itself). -/
def cycSchemas : List (String × Schema) :=
  [("A", Schema.refS "#/components/schemas/A")]

/-- The `$ref` of the element schema of the `items` property of a (list)
schema: `s.properties.items.items.$ref`. -/
def listItemsRef (s : Schema) : Option String :=
  match s.properties with
  | none => none
  | some ps =>
    match lookupA "items" ps with
    | none => none
    | some it =>
      match it.items with
      | none => none
      | some el => el.ref

/-! ## Lemmas about the association-list model of JS objects -/

theorem lookupA_insertAssoc_self {α : Type} (k : String) (v : α) (l : List (String × α)) :
    lookupA k (insertAssoc k v l) = some v := by
  induction l with
  | nil => simp [insertAssoc, lookupA]
  | cons kv rest ih =>
    obtain ⟨k', v'⟩ := kv
    by_cases h : k' = k <;> simp [insertAssoc, lookupA, h, ih]

theorem mem_keysOf_insertAssoc_self {α : Type} (k : String) (v : α) (l : List (String × α)) :
    k ∈ keysOf (insertAssoc k v l) := by
  induction l with
  | nil => simp [insertAssoc, keysOf]
  | cons kv rest ih =>
    obtain ⟨k', v'⟩ := kv
    by_cases h : k' = k <;> simp [insertAssoc, keysOf, h]
    · exact Or.inr (by simpa [keysOf] using ih)

theorem mem_keysOf_insertAssoc_of_mem {α : Type} (k k' : String) (v : α) (l : List (String × α))
    (h : k' ∈ keysOf l) : k' ∈ keysOf (insertAssoc k v l) := by
  induction l with
  | nil => simp [keysOf] at h
  | cons kv rest ih =>
    obtain ⟨k₀, v₀⟩ := kv
    by_cases hk : k₀ = k
    · simp only [insertAssoc, if_pos hk, keysOf, List.map_cons, List.mem_cons] at h ⊢
      rcases h with h | h
      · exact Or.inl (hk ▸ h)
      · exact Or.inr h
    · simp only [insertAssoc, if_neg hk, keysOf, List.map_cons, List.mem_cons] at h ⊢
      rcases h with h | h
      · exact Or.inl h
      · exact Or.inr (by simpa [keysOf] using ih (by simpa [keysOf] using h))

theorem lookupA_mem_snd {α : Type} (k : String) (l : List (String × α)) (v : α)
    (h : lookupA k l = some v) : v ∈ l.map Prod.snd := by
  induction l with
  | nil => simp [lookupA] at h
  | cons kv rest ih =>
    obtain ⟨k', v'⟩ := kv
    by_cases hk : k' = k
    · simp only [lookupA, if_pos hk, Option.some.injEq] at h
      simp [h]
    · simp only [lookupA, if_neg hk] at h
      simp [ih h]

/-! ## Lemmas about collected references -/

theorem refs_typed (t : String) : (Schema.typed t).refs = [] := by
  simp [Schema.refs, Schema.typed]

theorem refs_typedFmt (t f : String) : (Schema.typedFmt t f).refs = [] := by
  simp [Schema.refs, Schema.typedFmt]

theorem refs_typedEx (t : String) (e : JsonVal) : (Schema.typedEx t e).refs = [] := by
  simp [Schema.refs, Schema.typedEx]

theorem refs_refS (r : String) : (Schema.refS r).refs = [r] := by
  simp [Schema.refs, Schema.refS]

theorem refs_arrayOf (s : Schema) : (Schema.arrayOf s).refs = s.refs := by
  simp [Schema.refs, Schema.arrayOf]

theorem refsProps_nil : refsProps [] = [] := by simp [refsProps]

theorem refsProps_cons (k : String) (s : Schema) (ps : List (String × Schema)) :
    refsProps ((k, s) :: ps) = s.refs ++ refsProps ps := by simp [refsProps]

theorem refsList_nil : refsList [] = [] := by simp [refsList]

theorem refsList_cons (s : Schema) (ss : List Schema) :
    refsList (s :: ss) = s.refs ++ refsList ss := by simp [refsList]

theorem refs_mk (t f : Option String) (req : Option (List String))
    (props : Option (List (String × Schema))) (its : Option Schema)
    (en : Option (List String)) (ex : Option JsonVal) (r : Option String)
    (ao : Option (List Schema)) :
    (Schema.mk t f req props its en ex r ao).refs =
      (match r with | some s => [s] | none => []) ++
      (match its with | some s => Schema.refs s | none => []) ++
      (match ao with | some ss => refsList ss | none => []) ++
      (match props with | some ps => refsProps ps | none => []) := by
  cases props <;> cases its <;> cases r <;> cases ao <;> simp [Schema.refs]

theorem refs_scalarToSchema (s : String) : (scalarToSchema s).refs = [] := by
  unfold scalarToSchema
  split <;> simp [refs_typed, refs_typedFmt]

theorem mem_refsProps_insertAssoc (x : String) (k : String) (v : Schema) (l : List (String × Schema))
    (h : x ∈ refsProps (insertAssoc k v l)) : x ∈ v.refs ∨ x ∈ refsProps l := by
  induction l with
  | nil =>
    simp [insertAssoc, refsProps_cons, refsProps_nil] at h
    exact Or.inl h
  | cons kv rest ih =>
    obtain ⟨k', v'⟩ := kv
    by_cases hk : k' = k
    · simp only [insertAssoc, if_pos hk, refsProps_cons, List.mem_append] at h
      rcases h with h | h
      · exact Or.inl h
      · exact Or.inr (by simp [refsProps_cons, h])
    · simp only [insertAssoc, if_neg hk, refsProps_cons, List.mem_append] at h
      rcases h with h | h
      · exact Or.inr (by simp [refsProps_cons, h])
      · rcases ih h with h' | h'
        · exact Or.inl h'
        · exact Or.inr (by simp [refsProps_cons, h'])

theorem refs_sub_refsProps_of_mem_snd (v : Schema) (l : List (String × Schema))
    (h : v ∈ l.map Prod.snd) : ∀ x ∈ v.refs, x ∈ refsProps l := by
  induction l with
  | nil => simp at h
  | cons kv rest ih =>
    obtain ⟨k', v'⟩ := kv
    intro x hx
    simp only [List.map_cons, List.mem_cons] at h
    rcases h with h | h
    · subst h
      simp [refsProps_cons, List.mem_append, hx]
    · simp [refsProps_cons, List.mem_append, ih h x hx]

/-! ## Generic fold lemmas -/

theorem foldl_keys_mono {β : Type} (step : List (String × Schema) → β → List (String × Schema))
    (hstep : ∀ acc b k, k ∈ keysOf acc → k ∈ keysOf (step acc b)) :
    ∀ (l : List β) (init : List (String × Schema)) (k : String),
      k ∈ keysOf init → k ∈ keysOf (l.foldl step init) := by
  intro l
  induction l with
  | nil => intro init k h; simpa using h
  | cons b bs ih =>
    intro init k h
    exact ih (step init b) k (hstep init b k h)

theorem foldl_key_intro {β : Type} (step : List (String × Schema) → β → List (String × Schema))
    (hstep : ∀ acc b k, k ∈ keysOf acc → k ∈ keysOf (step acc b))
    (b : β) (k : String) (hintro : ∀ acc, k ∈ keysOf (step acc b)) :
    ∀ (l : List β) (init : List (String × Schema)), b ∈ l → k ∈ keysOf (l.foldl step init) := by
  intro l
  induction l with
  | nil => intro init h; simp at h
  | cons b' bs ih =>
    intro init hb
    rcases List.mem_cons.mp hb with h | h
    · subst h
      exact foldl_keys_mono step hstep bs (step init b) k (hintro init)
    · exact ih (step init b') h

theorem foldl_refs_bound {β : Type} (step : List (String × Schema) → β → List (String × Schema))
    (F : β → List String)
    (hstep : ∀ acc b x, x ∈ allRefs (step acc b) → x ∈ F b ∨ x ∈ allRefs acc) :
    ∀ (l : List β) (init : List (String × Schema)) (x : String),
      x ∈ allRefs (l.foldl step init) → (∃ b ∈ l, x ∈ F b) ∨ x ∈ allRefs init := by
  intro l
  induction l with
  | nil => intro init x h; exact Or.inr (by simpa using h)
  | cons b bs ih =>
    intro init x h
    rcases ih (step init b) x h with ⟨b', hb', hx⟩ | h'
    · exact Or.inl ⟨b', List.mem_cons_of_mem _ hb', hx⟩
    · rcases hstep init b x h' with h'' | h''
      · exact Or.inl ⟨b, List.mem_cons_self _ _, h''⟩
      · exact Or.inr h''

/-! ## Reference characterizations of the derivation functions -/

theorem refs_fieldSchemaAt (base : String) (f : DmmfField) (g : String → String) :
    (fieldSchemaAt base f g).refs =
      if f.kind = "enum" then [base ++ f.type]
      else if f.kind = "object" then [base ++ g f.type]
      else [] := by
  unfold fieldSchemaAt
  by_cases h1 : f.kind = "scalar"
  · cases hl : f.isList <;>
      simp [h1, hl, refs_arrayOf, refs_scalarToSchema, h1 ▸ (by simp [h1] : f.kind ≠ "enum"), refs_typed]
  · by_cases h2 : f.kind = "enum"
    · cases hl : f.isList <;> simp [h1, h2, hl, refs_arrayOf, refs_refS]
    · by_cases h3 : f.kind = "object"
      · cases hl : f.isList <;> simp [h1, h2, h3, hl, refs_arrayOf, refs_refS]
      · simp [h1, h2, h3, refs_typed]


/-- The single loop of `modelToGetSchema` splits into the properties fold and
the required-name collection. -/
theorem modelFold_split (base : String) (g : String → String) :
    ∀ (fields : List DmmfField) (ps : List (String × Schema)) (rs : List String),
      fields.foldl
        (fun (acc : List (String × Schema) × List String) f =>
          (insertAssoc f.name (fieldSchemaAt base f g) acc.1,
           if f.isRequired then acc.2 ++ [f.name] else acc.2))
        (ps, rs)
      = (fields.foldl (fun a f => insertAssoc f.name (fieldSchemaAt base f g) a) ps,
         rs ++ (fields.filter (·.isRequired)).map (·.name)) := by
  intro fields
  induction fields with
  | nil => intro ps rs; simp
  | cons f fs ih =>
    intro ps rs
    simp only [List.foldl_cons]
    rw [ih]
    by_cases hr : f.isRequired <;> simp [hr, List.filter_cons]

theorem mem_refsProps_foldl_insert (base : String) (g : String → String) :
    ∀ (fields : List DmmfField) (ps : List (String × Schema)) (x : String),
      x ∈ refsProps (fields.foldl (fun a f => insertAssoc f.name (fieldSchemaAt base f g) a) ps) →
      (∃ f ∈ fields, x ∈ (fieldSchemaAt base f g).refs) ∨ x ∈ refsProps ps := by
  intro fields
  induction fields with
  | nil => intro ps x h; exact Or.inr (by simpa using h)
  | cons f fs ih =>
    intro ps x h
    rcases ih _ x h with ⟨f', hf', hx⟩ | h'
    · exact Or.inl ⟨f', List.mem_cons_of_mem _ hf', hx⟩
    · rcases mem_refsProps_insertAssoc x _ _ _ h' with h'' | h''
      · exact Or.inl ⟨f, List.mem_cons_self _ _, h''⟩
      · exact Or.inr h''

theorem refs_modelToGetSchemaAt_sub (base : String) (m : DmmfModel) (g : String → String)
    (x : String) (h : x ∈ (modelToGetSchemaAt base m g).refs) :
    ∃ f ∈ m.fields, x ∈ (fieldSchemaAt base f g).refs := by
  unfold modelToGetSchemaAt at h
  rw [modelFold_split] at h
  simp only [Schema.refs, List.nil_append, List.append_nil] at h
  rcases mem_refsProps_foldl_insert base g m.fields [] x (by simpa using h) with h' | h'
  · exact h'
  · simp [refsProps_nil] at h'

theorem refsProps_filter_sub (p : String × Schema → Bool) (ps : List (String × Schema)) :
    ∀ x ∈ refsProps (ps.filter p), x ∈ refsProps ps := by
  induction ps with
  | nil => simp [refsProps_nil]
  | cons kv rest ih =>
    obtain ⟨k, s⟩ := kv
    intro x hx
    by_cases hp : p (k, s) = true
    · rw [List.filter_cons_of_pos hp] at hx
      rcases List.mem_append.mp ((refsProps_cons _ _ _) ▸ hx) with h | h
      · simp [refsProps_cons, h]
      · simp [refsProps_cons, ih x h]
    · rw [List.filter_cons_of_neg (by simpa using hp)] at hx
      simp [refsProps_cons, ih x hx]

theorem refs_stripWriteFields_sub (m : DmmfModel) (s : Schema) (omitSet : List String) :
    ∀ x ∈ (stripWriteFields m s omitSet).refs, x ∈ s.refs := by
  obtain ⟨t, f, req, props, its, en, ex, r, ao⟩ := s
  cases props with
  | none => intro x hx; simpa [stripWriteFields] using hx
  | some ps =>
    intro x hx
    simp only [stripWriteFields, refs_mk] at hx ⊢
    simp only [List.mem_append] at hx ⊢
    have hsub := refsProps_filter_sub
      (fun kv => decide ¬(omitSet.contains kv.1 = true ∨
        ((m.fields.filter (fun fl => decide (fl.kind = "object"))).map (fun x => x.name)).contains kv.1 = true))
      ps x
    tauto

theorem refs_makeAllOptional (s : Schema) : (makeAllOptional s).refs = s.refs := by
  obtain ⟨t, f, req, props, its, en, ex, r, ao⟩ := s
  simp [makeAllOptional, refs_mk]

theorem refs_attachExample (s : Schema) (comps : List (String × Schema)) :
    (Variant.attachExample s comps).refs = s.refs := by
  obtain ⟨t, f, req, props, its, en, ex, r, ao⟩ := s
  cases ex with
  | some e => simp [Variant.attachExample]
  | none =>
    simp only [Variant.attachExample]
    cases h : Variant.buildExampleFromSchema (Schema.mk t f req props its en none r ao) comps 0 with
    | none => rfl
    | some e => simp [refs_mk]

theorem refs_listResponseSchema_V (r : String) : (Variant.listResponseSchema r).refs = [r] := by
  simp [Variant.listResponseSchema, Schema.refs, refsProps_cons, refsProps_nil,
        refs_typedEx, refs_arrayOf, refs_refS]

theorem refs_listResponseSchema_P (r : String) : (Primary.listResponseSchema r).refs = [r] := by
  simp [Primary.listResponseSchema, Schema.refs, refsProps_cons, refsProps_nil,
        refs_typed, refs_arrayOf, refs_refS]

theorem refs_enumSchema_V (e : DmmfEnum) : (Variant.enumSchema e).refs = [] := by
  simp [Variant.enumSchema, Schema.refs]

theorem refs_enumSchema_P (e : DmmfEnum) : (Primary.enumSchema e).refs = [] := by
  simp [Primary.enumSchema, Schema.refs]

theorem refs_exceptionResponse : Variant.exceptionResponseSchema.refs = [] := by
  simp [Variant.exceptionResponseSchema, Schema.refs, refsProps_cons, refsProps_nil,
        refs_typed, refs_arrayOf]

theorem refs_badRequest :
    Variant.badRequestResponseSchema.refs = ["#/components/schemas/ExceptionResponse"] := by
  simp [Variant.badRequestResponseSchema, Schema.refs, refsList_cons, refsList_nil, refs_refS]

theorem refs_notFound :
    Variant.notFoundResponseSchema.refs = ["#/components/schemas/ExceptionResponse"] := by
  simp [Variant.notFoundResponseSchema, Schema.refs, refsList_cons, refsList_nil, refs_refS]

theorem refs_internalError :
    Variant.internalErrorResponseSchema.refs = ["#/components/schemas/ExceptionResponse"] := by
  simp [Variant.internalErrorResponseSchema, Schema.refs, refsList_cons, refsList_nil, refs_refS]

/-! ## The final path segment of a reference string -/

theorem splitSegs_ne_nil : ∀ l : List Char, splitSegs l ≠ [] := by
  intro l
  induction l with
  | nil => simp [splitSegs]
  | cons c rest ih =>
    by_cases h : c = '/'
    · simp [splitSegs, h]
    · simp only [splitSegs, if_neg h]
      cases hs : splitSegs rest with
      | nil => simp
      | cons s ss => simp

theorem splitSegs_noSlash : ∀ l : List Char, '/' ∉ l → splitSegs l = [l] := by
  intro l
  induction l with
  | nil => intro _; rfl
  | cons c rest ih =>
    intro h
    have hc : c ≠ '/' := fun he => h (he ▸ List.mem_cons_self c rest)
    have hr : '/' ∉ rest := fun hm => h (List.mem_cons_of_mem _ hm)
    simp only [splitSegs, if_neg hc, ih hr]

theorem length_splitSegs : ∀ l : List Char, (splitSegs l).length = l.count '/' + 1 := by
  intro l
  induction l with
  | nil => simp [splitSegs]
  | cons c rest ih =>
    by_cases h : c = '/'
    · subst h
      simp [splitSegs, List.count_cons, ih]
    · simp only [splitSegs, if_neg h]
      cases hs : splitSegs rest with
      | nil => exact absurd hs (splitSegs_ne_nil rest)
      | cons s ss =>
        have : (s :: ss).length = rest.count '/' + 1 := hs ▸ ih
        simpa [List.count_cons, h] using this

theorem getLast?_cons_of_ne_nil {α : Type} (a : α) (l : List α) (h : l ≠ []) :
    (a :: l).getLast? = l.getLast? := by
  cases l with
  | nil => exact absurd rfl h
  | cons b bs => exact List.getLast?_cons_cons

theorem getLastD_irrel {α : Type} (l : List α) (h : l ≠ []) (d d' : α) :
    l.getLastD d = l.getLastD d' := by
  cases l with
  | nil => exact absurd rfl h
  | cons b bs => rw [List.getLastD_cons, List.getLastD_cons]

theorem getLast?_splitSegs_append : ∀ (xs ys : List Char), '/' ∉ ys →
    (splitSegs (xs ++ ys)).getLast? = some ((splitSegs xs).getLastD [] ++ ys) := by
  intro xs
  induction xs with
  | nil =>
    intro ys hy
    rw [List.nil_append, splitSegs_noSlash ys hy]
    rfl
  | cons c xs ih =>
    intro ys hy
    have hIH := ih ys hy
    by_cases hc : c = '/'
    · subst hc
      rw [List.cons_append,
          show splitSegs ('/' :: (xs ++ ys)) = [] :: splitSegs (xs ++ ys) from by simp [splitSegs],
          show splitSegs ('/' :: xs) = [] :: splitSegs xs from by simp [splitSegs]]
      rw [getLast?_cons_of_ne_nil _ _ (splitSegs_ne_nil (xs ++ ys)), hIH, List.getLastD_cons]
    · rw [List.cons_append]
      simp only [splitSegs, if_neg hc]
      cases hs : splitSegs (xs ++ ys) with
      | nil => exact absurd hs (splitSegs_ne_nil _)
      | cons s ss =>
        cases hs' : splitSegs xs with
        | nil => exact absurd hs' (splitSegs_ne_nil _)
        | cons s' ss' =>
          rw [hs, hs'] at hIH
          have hlen : (s :: ss).length = (s' :: ss').length := by
            have h1 := length_splitSegs (xs ++ ys)
            have h2 := length_splitSegs xs
            rw [hs] at h1
            rw [hs'] at h2
            have hcount : (xs ++ ys).count '/' = xs.count '/' := by
              simp [List.count_append, List.count_eq_zero.mpr hy]
            rw [h1, h2, hcount]
          cases ss with
          | nil =>
            have hss' : ss' = [] := by
              simpa using hlen
            subst hss'
            simp only [List.getLastD_cons, List.getLastD_nil]
            have hseq : s = s' ++ ys := by
              simpa [List.getLastD_cons, List.getLastD_nil] using hIH
            simp [hseq]
          | cons s2 ss2 =>
            have hss' : ss' ≠ [] := by
              intro h
              subst h
              simp at hlen
            rw [getLast?_cons_of_ne_nil _ _ (by simp : (s2 :: ss2) ≠ [])]
            rw [getLast?_cons_of_ne_nil _ _ (by simp : (s2 :: ss2) ≠ [])] at hIH
            rw [hIH, List.getLastD_cons, List.getLastD_cons,
                getLastD_irrel ss' hss' (c :: s') s']

/-- If a prefix splits with an empty final segment (it ends in `'/'`) and the
appended name contains no slash, the final path segment is that name. -/
theorem lastSeg_append_noSlash (base X : String)
    (hb : (splitSegs base.data).getLastD [] = []) (hx : '/' ∉ X.data) :
    lastSeg (base ++ X) = X := by
  unfold lastSeg
  rw [String.data_append]
  have h := getLast?_splitSegs_append base.data X.data hx
  rw [List.getLastD_eq_getLast?, h, hb]
  rfl

theorem noSlash_getRefName (n : String) (hn : '/' ∉ n.data) :
    '/' ∉ ("Get" ++ n ++ "Response").data := by
  intro h
  rw [String.data_append, String.data_append] at h
  rcases List.mem_append.mp h with h' | h'
  · rcases List.mem_append.mp h' with h'' | h''
    · exact absurd h'' (by decide)
    · exact hn h''
  · exact absurd h' (by decide)

theorem lastSeg_schemas_base (X : String) (hx : '/' ∉ X.data) :
    lastSeg ("#/components/schemas/" ++ X) = X :=
  lastSeg_append_noSlash _ X (by decide) hx

theorem lastSeg_atSchemas_base (X : String) (hx : '/' ∉ X.data) :
    lastSeg ("#/components/@schemas/" ++ X) = X :=
  lastSeg_append_noSlash _ X (by decide) hx

theorem allRefs_def (l : List (String × Schema)) : allRefs l = refsProps l := rfl

/-! ## Reference and key bounds on the two build pipelines -/

theorem refs_condInsert_sub (a : List (String × Schema)) (n : String) (c : Prop) [Decidable c]
    (x : String)
    (h : x ∈ refsProps (if c then
        match lookupA n a with
        | some s => insertAssoc n (Variant.attachExample s a) a
        | none => a
      else a)) : x ∈ refsProps a := by
  by_cases hc : c
  · rw [if_pos hc] at h
    cases hl : lookupA n a with
    | none => rw [hl] at h; exact h
    | some s =>
      rw [hl] at h
      rcases mem_refsProps_insertAssoc x _ _ _ h with h' | h'
      · rw [refs_attachExample] at h'
        exact refs_sub_refsProps_of_mem_snd s a (lookupA_mem_snd n a s hl) x h'
      · exact h'
  · rw [if_neg hc] at h
    exact h

theorem refs_attachStep_sub (acc : List (String × Schema)) (n : String) (x : String)
    (h : x ∈ refsProps (Variant.attachStep acc n)) : x ∈ refsProps acc := by
  unfold Variant.attachStep at h
  exact refs_condInsert_sub acc n _ x (refs_condInsert_sub _ n _ x h)

theorem keys_condInsert_mono (a : List (String × Schema)) (n : String) (c : Prop) [Decidable c]
    (k : String) (h : k ∈ keysOf a) :
    k ∈ keysOf (if c then
        match lookupA n a with
        | some s => insertAssoc n (Variant.attachExample s a) a
        | none => a
      else a) := by
  by_cases hc : c
  · rw [if_pos hc]
    cases hl : lookupA n a with
    | none => exact h
    | some s => exact mem_keysOf_insertAssoc_of_mem n k _ a h
  · rw [if_neg hc]
    exact h

theorem keys_attachStep_mono (acc : List (String × Schema)) (n : String) (k : String)
    (h : k ∈ keysOf acc) : k ∈ keysOf (Variant.attachStep acc n) := by
  unfold Variant.attachStep
  exact keys_condInsert_mono _ n _ k (keys_condInsert_mono acc n _ k h)

theorem refs_foldl_attach_sub (names : List String) :
    ∀ (init : List (String × Schema)) (x : String),
      x ∈ refsProps (names.foldl Variant.attachStep init) → x ∈ refsProps init := by
  induction names with
  | nil => intro init x h; simpa using h
  | cons n ns ih =>
    intro init x h
    exact refs_attachStep_sub init n x (ih (Variant.attachStep init n) x h)

theorem refs_insertModel_V (acc : List (String × Schema)) (m : DmmfModel) (x : String)
    (h : x ∈ refsProps (Variant.insertModel acc m)) :
    x = "#/components/schemas/" ++ getRefName m.name ∨
    (∃ f ∈ m.fields, x ∈ (fieldSchemaAt "#/components/schemas/" f getRefName).refs) ∨
    x ∈ refsProps acc := by
  simp only [Variant.insertModel, Variant.modelToGetSchema] at h
  rcases mem_refsProps_insertAssoc x _ _ _ h with h1 | h1
  · rw [refs_listResponseSchema_V] at h1
    left
    simpa [getRefName] using h1
  · rcases mem_refsProps_insertAssoc x _ _ _ h1 with h2 | h2
    · rw [refs_makeAllOptional] at h2
      exact Or.inr (Or.inl (refs_modelToGetSchemaAt_sub _ m getRefName x
        (refs_stripWriteFields_sub m _ Variant.OMIT_FIELDS x h2)))
    · rcases mem_refsProps_insertAssoc x _ _ _ h2 with h3 | h3
      · exact Or.inr (Or.inl (refs_modelToGetSchemaAt_sub _ m getRefName x
          (refs_stripWriteFields_sub m _ Variant.OMIT_FIELDS x h3)))
      · rcases mem_refsProps_insertAssoc x _ _ _ h3 with h4 | h4
        · exact Or.inr (Or.inl (refs_modelToGetSchemaAt_sub _ m getRefName x h4))
        · exact Or.inr (Or.inr h4)

theorem refs_insertModel_P (omitSet : List String) (acc : List (String × Schema)) (m : DmmfModel)
    (x : String) (h : x ∈ refsProps (Primary.insertModel omitSet acc m)) :
    x = "#/components/@schemas/" ++ getRefName m.name ∨
    (∃ f ∈ m.fields, x ∈ (fieldSchemaAt "#/components/@schemas/" f getRefName).refs) ∨
    x ∈ refsProps acc := by
  simp only [Primary.insertModel, Primary.modelToGetSchema] at h
  rcases mem_refsProps_insertAssoc x _ _ _ h with h1 | h1
  · rw [refs_listResponseSchema_P] at h1
    left
    simpa [getRefName] using h1
  · rcases mem_refsProps_insertAssoc x _ _ _ h1 with h2 | h2
    · rw [refs_makeAllOptional] at h2
      exact Or.inr (Or.inl (refs_modelToGetSchemaAt_sub _ m getRefName x
        (refs_stripWriteFields_sub m _ omitSet x h2)))
    · rcases mem_refsProps_insertAssoc x _ _ _ h2 with h3 | h3
      · exact Or.inr (Or.inl (refs_modelToGetSchemaAt_sub _ m getRefName x
          (refs_stripWriteFields_sub m _ omitSet x h3)))
      · rcases mem_refsProps_insertAssoc x _ _ _ h3 with h4 | h4
        · exact Or.inr (Or.inl (refs_modelToGetSchemaAt_sub _ m getRefName x h4))
        · exact Or.inr (Or.inr h4)

theorem keys_insertModel_V_mono (acc : List (String × Schema)) (m : DmmfModel) (k : String)
    (h : k ∈ keysOf acc) : k ∈ keysOf (Variant.insertModel acc m) := by
  simp only [Variant.insertModel]
  exact mem_keysOf_insertAssoc_of_mem _ k _ _
    (mem_keysOf_insertAssoc_of_mem _ k _ _
      (mem_keysOf_insertAssoc_of_mem _ k _ _
        (mem_keysOf_insertAssoc_of_mem _ k _ _ h)))

theorem keys_insertModel_P_mono (omitSet : List String) (acc : List (String × Schema))
    (m : DmmfModel) (k : String) (h : k ∈ keysOf acc) :
    k ∈ keysOf (Primary.insertModel omitSet acc m) := by
  simp only [Primary.insertModel]
  exact mem_keysOf_insertAssoc_of_mem _ k _ _
    (mem_keysOf_insertAssoc_of_mem _ k _ _
      (mem_keysOf_insertAssoc_of_mem _ k _ _
        (mem_keysOf_insertAssoc_of_mem _ k _ _ h)))

theorem keys_insertModel_V_names (acc : List (String × Schema)) (m : DmmfModel) :
    ("Get" ++ m.name ++ "Response") ∈ keysOf (Variant.insertModel acc m) ∧
    ("Post" ++ m.name ++ "Request") ∈ keysOf (Variant.insertModel acc m) ∧
    ("Put" ++ m.name ++ "Request") ∈ keysOf (Variant.insertModel acc m) ∧
    ("List" ++ pluralize m.name ++ "Response") ∈ keysOf (Variant.insertModel acc m) := by
  simp only [Variant.insertModel]
  refine ⟨?_, ?_, ?_, ?_⟩
  · exact mem_keysOf_insertAssoc_of_mem _ _ _ _
      (mem_keysOf_insertAssoc_of_mem _ _ _ _
        (mem_keysOf_insertAssoc_of_mem _ _ _ _
          (mem_keysOf_insertAssoc_self _ _ _)))
  · exact mem_keysOf_insertAssoc_of_mem _ _ _ _
      (mem_keysOf_insertAssoc_of_mem _ _ _ _
        (mem_keysOf_insertAssoc_self _ _ _))
  · exact mem_keysOf_insertAssoc_of_mem _ _ _ _
      (mem_keysOf_insertAssoc_self _ _ _)
  · exact mem_keysOf_insertAssoc_self _ _ _

theorem keys_insertModel_P_names (omitSet : List String) (acc : List (String × Schema))
    (m : DmmfModel) :
    ("Get" ++ m.name ++ "Response") ∈ keysOf (Primary.insertModel omitSet acc m) ∧
    ("Post" ++ m.name ++ "Request") ∈ keysOf (Primary.insertModel omitSet acc m) ∧
    ("Put" ++ m.name ++ "Request") ∈ keysOf (Primary.insertModel omitSet acc m) ∧
    ("List" ++ pluralize m.name ++ "Response") ∈ keysOf (Primary.insertModel omitSet acc m) := by
  simp only [Primary.insertModel]
  refine ⟨?_, ?_, ?_, ?_⟩
  · exact mem_keysOf_insertAssoc_of_mem _ _ _ _
      (mem_keysOf_insertAssoc_of_mem _ _ _ _
        (mem_keysOf_insertAssoc_of_mem _ _ _ _
          (mem_keysOf_insertAssoc_self _ _ _)))
  · exact mem_keysOf_insertAssoc_of_mem _ _ _ _
      (mem_keysOf_insertAssoc_of_mem _ _ _ _
        (mem_keysOf_insertAssoc_self _ _ _))
  · exact mem_keysOf_insertAssoc_of_mem _ _ _ _
      (mem_keysOf_insertAssoc_self _ _ _)
  · exact mem_keysOf_insertAssoc_self _ _ _

theorem foldl_refs_bound' {β : Type} (step : List (String × Schema) → β → List (String × Schema))
    (P : β → String → Prop)
    (hstep : ∀ acc b x, x ∈ refsProps (step acc b) → P b x ∨ x ∈ refsProps acc) :
    ∀ (l : List β) (init : List (String × Schema)) (x : String),
      x ∈ refsProps (l.foldl step init) → (∃ b ∈ l, P b x) ∨ x ∈ refsProps init := by
  intro l
  induction l with
  | nil => intro init x h; exact Or.inr (by simpa using h)
  | cons b bs ih =>
    intro init x h
    rcases ih (step init b) x h with ⟨b', hb', hx⟩ | h'
    · exact Or.inl ⟨b', List.mem_cons_of_mem _ hb', hx⟩
    · rcases hstep init b x h' with h'' | h''
      · exact Or.inl ⟨b, List.mem_cons_self _ _, h''⟩
      · exact Or.inr h''

theorem keys_buildV_of_mid (dmmf : Dmmf) (k : String)
    (h : k ∈ keysOf (dmmf.datamodel.models.foldl Variant.insertModel
      (dmmf.datamodel.enums.foldl (fun acc e => insertAssoc e.name (Variant.enumSchema e) acc) []))) :
    k ∈ keysOf (Variant.buildSchemasFromDmmf dmmf) := by
  simp only [Variant.buildSchemasFromDmmf]
  apply foldl_keys_mono Variant.attachStep (fun acc b kk hh => keys_attachStep_mono acc b kk hh)
  exact mem_keysOf_insertAssoc_of_mem _ _ _ _
    (mem_keysOf_insertAssoc_of_mem _ _ _ _
      (mem_keysOf_insertAssoc_of_mem _ _ _ _
        (mem_keysOf_insertAssoc_of_mem _ _ _ _ h)))

theorem key_enum_V (dmmf : Dmmf) (e : DmmfEnum) (he : e ∈ dmmf.datamodel.enums) :
    e.name ∈ keysOf (Variant.buildSchemasFromDmmf dmmf) := by
  apply keys_buildV_of_mid
  apply foldl_keys_mono Variant.insertModel (fun acc b kk hh => keys_insertModel_V_mono acc b kk hh)
  exact foldl_key_intro _ (fun acc b kk hh => mem_keysOf_insertAssoc_of_mem _ _ _ _ hh) e e.name
    (fun acc => mem_keysOf_insertAssoc_self _ _ _) _ _ he

theorem key_model_names_V (dmmf : Dmmf) (m : DmmfModel) (hm : m ∈ dmmf.datamodel.models) :
    ("Get" ++ m.name ++ "Response") ∈ keysOf (Variant.buildSchemasFromDmmf dmmf) ∧
    ("Post" ++ m.name ++ "Request") ∈ keysOf (Variant.buildSchemasFromDmmf dmmf) ∧
    ("Put" ++ m.name ++ "Request") ∈ keysOf (Variant.buildSchemasFromDmmf dmmf) ∧
    ("List" ++ pluralize m.name ++ "Response") ∈ keysOf (Variant.buildSchemasFromDmmf dmmf) := by
  refine ⟨?_, ?_, ?_, ?_⟩ <;> apply keys_buildV_of_mid
  · exact foldl_key_intro Variant.insertModel (fun acc b kk hh => keys_insertModel_V_mono acc b kk hh)
      m _ (fun acc => (keys_insertModel_V_names acc m).1) _ _ hm
  · exact foldl_key_intro Variant.insertModel (fun acc b kk hh => keys_insertModel_V_mono acc b kk hh)
      m _ (fun acc => (keys_insertModel_V_names acc m).2.1) _ _ hm
  · exact foldl_key_intro Variant.insertModel (fun acc b kk hh => keys_insertModel_V_mono acc b kk hh)
      m _ (fun acc => (keys_insertModel_V_names acc m).2.2.1) _ _ hm
  · exact foldl_key_intro Variant.insertModel (fun acc b kk hh => keys_insertModel_V_mono acc b kk hh)
      m _ (fun acc => (keys_insertModel_V_names acc m).2.2.2) _ _ hm

theorem key_exception_V (dmmf : Dmmf) :
    "ExceptionResponse" ∈ keysOf (Variant.buildSchemasFromDmmf dmmf) := by
  simp only [Variant.buildSchemasFromDmmf]
  apply foldl_keys_mono Variant.attachStep (fun acc b kk hh => keys_attachStep_mono acc b kk hh)
  exact mem_keysOf_insertAssoc_of_mem _ _ _ _
    (mem_keysOf_insertAssoc_of_mem _ _ _ _
      (mem_keysOf_insertAssoc_of_mem _ _ _ _
        (mem_keysOf_insertAssoc_self _ _ _)))

theorem key_enum_P (omitSet : List String) (dmmf : Dmmf) (e : DmmfEnum)
    (he : e ∈ dmmf.datamodel.enums) :
    e.name ∈ keysOf (Primary.buildSchemas omitSet dmmf) := by
  simp only [Primary.buildSchemas]
  apply foldl_keys_mono (Primary.insertModel omitSet)
    (fun acc b kk hh => keys_insertModel_P_mono omitSet acc b kk hh)
  exact foldl_key_intro _ (fun acc b kk hh => mem_keysOf_insertAssoc_of_mem _ _ _ _ hh) e e.name
    (fun acc => mem_keysOf_insertAssoc_self _ _ _) _ _ he

theorem key_model_names_P (omitSet : List String) (dmmf : Dmmf) (m : DmmfModel)
    (hm : m ∈ dmmf.datamodel.models) :
    ("Get" ++ m.name ++ "Response") ∈ keysOf (Primary.buildSchemas omitSet dmmf) ∧
    ("Post" ++ m.name ++ "Request") ∈ keysOf (Primary.buildSchemas omitSet dmmf) ∧
    ("Put" ++ m.name ++ "Request") ∈ keysOf (Primary.buildSchemas omitSet dmmf) ∧
    ("List" ++ pluralize m.name ++ "Response") ∈ keysOf (Primary.buildSchemas omitSet dmmf) := by
  simp only [Primary.buildSchemas]
  refine ⟨?_, ?_, ?_, ?_⟩
  · exact foldl_key_intro (Primary.insertModel omitSet)
      (fun acc b kk hh => keys_insertModel_P_mono omitSet acc b kk hh)
      m _ (fun acc => (keys_insertModel_P_names omitSet acc m).1) _ _ hm
  · exact foldl_key_intro (Primary.insertModel omitSet)
      (fun acc b kk hh => keys_insertModel_P_mono omitSet acc b kk hh)
      m _ (fun acc => (keys_insertModel_P_names omitSet acc m).2.1) _ _ hm
  · exact foldl_key_intro (Primary.insertModel omitSet)
      (fun acc b kk hh => keys_insertModel_P_mono omitSet acc b kk hh)
      m _ (fun acc => (keys_insertModel_P_names omitSet acc m).2.2.1) _ _ hm
  · exact foldl_key_intro (Primary.insertModel omitSet)
      (fun acc b kk hh => keys_insertModel_P_mono omitSet acc b kk hh)
      m _ (fun acc => (keys_insertModel_P_names omitSet acc m).2.2.2) _ _ hm

theorem refs_buildV_cases (dmmf : Dmmf) (x : String)
    (h : x ∈ refsProps (Variant.buildSchemasFromDmmf dmmf)) :
    (∃ m ∈ dmmf.datamodel.models,
      x = "#/components/schemas/" ++ getRefName m.name ∨
      ∃ f ∈ m.fields, x ∈ (fieldSchemaAt "#/components/schemas/" f getRefName).refs) ∨
    x = "#/components/schemas/ExceptionResponse" := by
  simp only [Variant.buildSchemasFromDmmf] at h
  have h6 := refs_foldl_attach_sub _ _ x h
  rcases mem_refsProps_insertAssoc x _ _ _ h6 with hx | h5
  · rw [refs_internalError] at hx
    exact Or.inr (by simpa using hx)
  rcases mem_refsProps_insertAssoc x _ _ _ h5 with hx | h4
  · rw [refs_notFound] at hx
    exact Or.inr (by simpa using hx)
  rcases mem_refsProps_insertAssoc x _ _ _ h4 with hx | h3
  · rw [refs_badRequest] at hx
    exact Or.inr (by simpa using hx)
  rcases mem_refsProps_insertAssoc x _ _ _ h3 with hx | h2
  · rw [refs_exceptionResponse] at hx
    simp at hx
  rcases foldl_refs_bound' Variant.insertModel
      (fun m y => y = "#/components/schemas/" ++ getRefName m.name ∨
        ∃ f ∈ m.fields, y ∈ (fieldSchemaAt "#/components/schemas/" f getRefName).refs)
      (fun acc b y hy => by
        rcases refs_insertModel_V acc b y hy with h' | h' | h'
        · exact Or.inl (Or.inl h')
        · exact Or.inl (Or.inr h')
        · exact Or.inr h')
      _ _ x h2 with ⟨m, hm, hx⟩ | h1
  · exact Or.inl ⟨m, hm, hx⟩
  · rcases foldl_refs_bound' (fun acc e => insertAssoc e.name (Variant.enumSchema e) acc)
        (fun _ _ => False)
        (fun acc b y hy => by
          rcases mem_refsProps_insertAssoc y _ _ _ hy with h' | h'
          · rw [refs_enumSchema_V] at h'
            simp at h'
          · exact Or.inr h')
        _ _ x h1 with ⟨_, _, hx⟩ | h0
    · exact absurd hx (by simp)
    · simp [refsProps_nil] at h0

theorem refs_buildP_cases (omitSet : List String) (dmmf : Dmmf) (x : String)
    (h : x ∈ refsProps (Primary.buildSchemas omitSet dmmf)) :
    ∃ m ∈ dmmf.datamodel.models,
      x = "#/components/@schemas/" ++ getRefName m.name ∨
      ∃ f ∈ m.fields, x ∈ (fieldSchemaAt "#/components/@schemas/" f getRefName).refs := by
  simp only [Primary.buildSchemas] at h
  rcases foldl_refs_bound' (Primary.insertModel omitSet)
      (fun m y => y = "#/components/@schemas/" ++ getRefName m.name ∨
        ∃ f ∈ m.fields, y ∈ (fieldSchemaAt "#/components/@schemas/" f getRefName).refs)
      (fun acc b y hy => by
        rcases refs_insertModel_P omitSet acc b y hy with h' | h' | h'
        · exact Or.inl (Or.inl h')
        · exact Or.inl (Or.inr h')
        · exact Or.inr h')
      _ _ x h with ⟨m, hm, hx⟩ | h1
  · exact ⟨m, hm, hx⟩
  · rcases foldl_refs_bound' (fun acc e => insertAssoc e.name (Primary.enumSchema e) acc)
        (fun _ _ => False)
        (fun acc b y hy => by
          rcases mem_refsProps_insertAssoc y _ _ _ hy with h' | h'
          · rw [refs_enumSchema_P] at h'
            simp at h'
          · exact Or.inr h')
        _ _ x h1 with ⟨_, _, hx⟩ | h0
    · exact absurd hx (by simp)
    · simp [refsProps_nil] at h0

/-- Claim C10: for every model description whose relation fields name models
present in it and whose enum fields name enums present in it (and whose
model/enum names are slash-free identifiers, as Prisma guarantees), every
`$ref` string occurring anywhere in the generated schema collection has as
its final path segment a key of that same collection — in the later variant
(including the fixed error-response refs to `ExceptionResponse`) and in the
primary module alike. -/
theorem c10_all_refs_resolve (dmmf : Dmmf)
    (hrel : ∀ m ∈ dmmf.datamodel.models, ∀ f ∈ m.fields, f.kind = "object" →
      ∃ m' ∈ dmmf.datamodel.models, m'.name = f.type)
    (henum : ∀ m ∈ dmmf.datamodel.models, ∀ f ∈ m.fields, f.kind = "enum" →
      ∃ e ∈ dmmf.datamodel.enums, e.name = f.type)
    (hmn : ∀ m ∈ dmmf.datamodel.models, '/' ∉ m.name.data)
    (hen : ∀ e ∈ dmmf.datamodel.enums, '/' ∉ e.name.data) :
    (∀ r ∈ allRefs (Variant.buildSchemasFromDmmf dmmf),
      lastSeg r ∈ keysOf (Variant.buildSchemasFromDmmf dmmf)) ∧
    (∀ omitSet : List String, ∀ r ∈ allRefs (Primary.buildSchemas omitSet dmmf),
      lastSeg r ∈ keysOf (Primary.buildSchemas omitSet dmmf)) := by
  constructor
  · intro r hr
    rw [allRefs_def] at hr
    rcases refs_buildV_cases dmmf r hr with ⟨m, hm, hcase⟩ | hexc
    · rcases hcase with hx | ⟨f, hf, hx⟩
      · subst hx
        rw [show getRefName m.name = "Get" ++ m.name ++ "Response" from rfl,
            lastSeg_schemas_base _ (noSlash_getRefName m.name (hmn m hm))]
        exact (key_model_names_V dmmf m hm).1
      · rw [refs_fieldSchemaAt] at hx
        by_cases hk : f.kind = "enum"
        · rw [if_pos hk] at hx
          simp only [List.mem_singleton] at hx
          subst hx
          obtain ⟨e, he, hname⟩ := henum m hm f hf hk
          have hslash : '/' ∉ f.type.data := hname ▸ hen e he
          rw [lastSeg_schemas_base _ hslash, ← hname]
          exact key_enum_V dmmf e he
        · rw [if_neg hk] at hx
          by_cases ho : f.kind = "object"
          · rw [if_pos ho] at hx
            simp only [List.mem_singleton] at hx
            subst hx
            obtain ⟨m', hm', hname⟩ := hrel m hm f hf ho
            have hslash : '/' ∉ f.type.data := hname ▸ hmn m' hm'
            rw [show getRefName f.type = "Get" ++ f.type ++ "Response" from rfl,
                lastSeg_schemas_base _ (noSlash_getRefName f.type hslash)]
            have hkey := (key_model_names_V dmmf m' hm').1
            rwa [hname] at hkey
          · rw [if_neg ho] at hx
            simp at hx
    · subst hexc
      have hls : lastSeg "#/components/schemas/ExceptionResponse" = "ExceptionResponse" := by decide
      rw [hls]
      exact key_exception_V dmmf
  · intro omitSet r hr
    rw [allRefs_def] at hr
    rcases refs_buildP_cases omitSet dmmf r hr with ⟨m, hm, hcase⟩
    rcases hcase with hx | ⟨f, hf, hx⟩
    · subst hx
      rw [show getRefName m.name = "Get" ++ m.name ++ "Response" from rfl,
          lastSeg_atSchemas_base _ (noSlash_getRefName m.name (hmn m hm))]
      exact (key_model_names_P omitSet dmmf m hm).1
    · rw [refs_fieldSchemaAt] at hx
      by_cases hk : f.kind = "enum"
      · rw [if_pos hk] at hx
        simp only [List.mem_singleton] at hx
        subst hx
        obtain ⟨e, he, hname⟩ := henum m hm f hf hk
        have hslash : '/' ∉ f.type.data := hname ▸ hen e he
        rw [lastSeg_atSchemas_base _ hslash, ← hname]
        exact key_enum_P omitSet dmmf e he
      · rw [if_neg hk] at hx
        by_cases ho : f.kind = "object"
        · rw [if_pos ho] at hx
          simp only [List.mem_singleton] at hx
          subst hx
          obtain ⟨m', hm', hname⟩ := hrel m hm f hf ho
          have hslash : '/' ∉ f.type.data := hname ▸ hmn m' hm'
          rw [show getRefName f.type = "Get" ++ f.type ++ "Response" from rfl,
              lastSeg_atSchemas_base _ (noSlash_getRefName f.type hslash)]
          have hkey := (key_model_names_P omitSet dmmf m' hm').1
          rwa [hname] at hkey
        · rw [if_neg ho] at hx
          simp at hx

/-- Witness for C10 at a concrete model description with an enum field and a
self-referencing relation field. -/
theorem c10_all_refs_resolve_witness :
    (∀ m ∈ relDmmf.datamodel.models, ∀ f ∈ m.fields, f.kind = "object" →
      ∃ m' ∈ relDmmf.datamodel.models, m'.name = f.type) ∧
    (∀ r ∈ allRefs (Variant.buildSchemasFromDmmf relDmmf),
      lastSeg r ∈ keysOf (Variant.buildSchemasFromDmmf relDmmf)) :=
  ⟨by decide,
   (c10_all_refs_resolve relDmmf (by decide) (by decide) (by decide) (by decide)).1⟩

/-! ## Claim theorems -/

/-- Claim C5: the update (Put) schema derived by `makeAllOptional` never
contains a `required` key, and every other part of it — `type`, `properties`
with all their nested sub-schemas, and the remaining keys — equals the
corresponding part of the input write schema. -/
theorem c5_makeAllOptional_removes_required (s : Schema) :
    (makeAllOptional s).required = none ∧
    (makeAllOptional s).type = s.type ∧
    (makeAllOptional s).format = s.format ∧
    (makeAllOptional s).properties = s.properties ∧
    (makeAllOptional s).items = s.items ∧
    (makeAllOptional s).enumVals = s.enumVals ∧
    (makeAllOptional s).exampleVal = s.exampleVal ∧
    (makeAllOptional s).ref = s.ref ∧
    (makeAllOptional s).allOf = s.allOf := by
  obtain ⟨t, f, req, props, its, en, ex, r, ao⟩ := s
  exact ⟨rfl, rfl, rfl, rfl, rfl, rfl, rfl, rfl, rfl⟩

/-- Claim C6: `scalarToSchema` is total over all strings, maps each of the
nine recognized scalar names to exactly the documented fragment, and maps
every other string to `{type:"string"}`. -/
theorem c6_scalarToSchema_mapping :
    scalarToSchema "String" = Schema.typed "string" ∧
    scalarToSchema "Boolean" = Schema.typed "boolean" ∧
    scalarToSchema "Int" = Schema.typed "integer" ∧
    scalarToSchema "BigInt" = Schema.typedFmt "integer" "int64" ∧
    scalarToSchema "Float" = Schema.typed "number" ∧
    scalarToSchema "Decimal" = Schema.typed "number" ∧
    scalarToSchema "DateTime" = Schema.typedFmt "string" "date-time" ∧
    scalarToSchema "Json" = Schema.typed "object" ∧
    scalarToSchema "Bytes" = Schema.typedFmt "string" "byte" ∧
    ∀ s : String,
      s ∉ (["String", "Boolean", "Int", "BigInt", "Float", "Decimal",
            "DateTime", "Json", "Bytes"] : List String) →
      scalarToSchema s = Schema.typed "string" := by
  refine ⟨rfl, rfl, rfl, rfl, rfl, rfl, rfl, rfl, rfl, ?_⟩
  intro s hs
  unfold scalarToSchema
  split <;> simp_all

/-- Witness for C6: an unrecognized scalar name falls back to `{type:"string"}`. -/
theorem c6_scalarToSchema_mapping_witness :
    ("Unrecognized" ∉ (["String", "Boolean", "Int", "BigInt", "Float", "Decimal",
      "DateTime", "Json", "Bytes"] : List String)) ∧
    scalarToSchema "Unrecognized" = Schema.typed "string" :=
  ⟨by decide,
   c6_scalarToSchema_mapping.2.2.2.2.2.2.2.2.2 "Unrecognized" (by decide)⟩

/-- Claim C8: example synthesis is depth-capped — it returns no example
(`undefined`) whenever the depth counter exceeds 2, on every schema and every
component collection, so the recursion (modelled by the remaining budget
`3 - depth`, which every recursive call decreases) can never pass the cap or
loop forever, even on cyclic `$ref` chains. -/
theorem c8_example_synthesis_depth_cap (s : Schema) (components : List (String × Schema))
    (depth : Nat) (h : 2 < depth) :
    Variant.buildExampleFromSchema s components depth = none := by
  unfold Variant.buildExampleFromSchema
  rw [show 3 - depth = 0 by omega]
  rfl

/-- Witness for C8 on a self-referencing component collection. -/
theorem c8_example_synthesis_depth_cap_witness :
    2 < 3 ∧
    Variant.buildExampleFromSchema (Schema.refS "#/components/schemas/A") cycSchemas 3 = none :=
  ⟨by decide, c8_example_synthesis_depth_cap _ cycSchemas 3 (by decide)⟩

/-- Claim C9: when no file exists at the resolved schema path, loading fails
with an error whose message contains that exact resolved path, no schema
collection is produced, and the run ends with exit code 1 — in both
variants. -/
theorem c9_missing_schema_file (fsExists : String → Bool) (readF : String → String)
    (getDMMF? : Option (String → Option Dmmf)) (omitSet : List String) (resolved : String)
    (h : fsExists resolved = false) :
    (Variant.runPipeline fsExists readF getDMMF? resolved =
        Except.error ("Prisma schema not found at: " ++ resolved) ∧
      (∃ pre post, "Prisma schema not found at: " ++ resolved = pre ++ resolved ++ post) ∧
      (∀ out, Variant.runPipeline fsExists readF getDMMF? resolved ≠ Except.ok out) ∧
      cliExitCode (Variant.runPipeline fsExists readF getDMMF? resolved) = 1) ∧
    (Primary.runPipeline fsExists readF getDMMF? omitSet resolved =
        Except.error ("Prisma schema not found at " ++ resolved) ∧
      (∃ pre post, "Prisma schema not found at " ++ resolved = pre ++ resolved ++ post) ∧
      (∀ out, Primary.runPipeline fsExists readF getDMMF? omitSet resolved ≠ Except.ok out) ∧
      cliExitCode (Primary.runPipeline fsExists readF getDMMF? omitSet resolved) = 1) := by
  have hv : Variant.runPipeline fsExists readF getDMMF? resolved =
      Except.error ("Prisma schema not found at: " ++ resolved) := by
    simp [Variant.runPipeline, Variant.loadDmmfFromProject, h]
  have hp : Primary.runPipeline fsExists readF getDMMF? omitSet resolved =
      Except.error ("Prisma schema not found at " ++ resolved) := by
    simp [Primary.runPipeline, Primary.loadDmmfFromProject, h]
  refine ⟨⟨hv, ⟨"Prisma schema not found at: ", "", by simp⟩, ?_, ?_⟩,
          ⟨hp, ⟨"Prisma schema not found at ", "", by simp⟩, ?_, ?_⟩⟩
  · intro out hout
    rw [hv] at hout
    cases hout
  · rw [hv]
    rfl
  · intro out hout
    rw [hp] at hout
    cases hout
  · rw [hp]
    rfl

/-- Witness for C9 at a filesystem with no files. -/
theorem c9_missing_schema_file_witness :
    ((fun _ : String => false) "/w/prisma/schema.prisma" = false) ∧
    cliExitCode (Variant.runPipeline (fun _ => false) (fun _ => "") none
      "/w/prisma/schema.prisma") = 1 ∧
    cliExitCode (Primary.runPipeline (fun _ => false) (fun _ => "") none []
      "/w/prisma/schema.prisma") = 1 := by
  have h := c9_missing_schema_file (fun _ => false) (fun _ => "") none []
    "/w/prisma/schema.prisma" rfl
  exact ⟨rfl, h.1.2.2.2, h.2.2.2.2⟩

/-- Claim C2: the field-to-schema mapper has exactly four outcomes per kind,
determined only by the field's kind and `isList` flag: scalar fields yield
the scalar fragment (array-wrapped when `isList`), enum fields a `$ref` to
the enum's schema name, relation (`object`-kind) fields a `$ref` to
`Get<Model>Response`, and any other kind `{type:"object"}` — in both
variants, each under its own components path. -/
theorem c2_fieldSchema_outcomes (f : DmmfField) :
    (f.kind = "scalar" →
      Variant.fieldSchema f getRefName =
        (if f.isList then Schema.arrayOf (scalarToSchema f.type) else scalarToSchema f.type) ∧
      Primary.fieldSchema f getRefName =
        (if f.isList then Schema.arrayOf (scalarToSchema f.type) else scalarToSchema f.type)) ∧
    (f.kind = "enum" →
      Variant.fieldSchema f getRefName =
        (if f.isList then Schema.arrayOf (Schema.refS ("#/components/schemas/" ++ f.type))
         else Schema.refS ("#/components/schemas/" ++ f.type)) ∧
      Primary.fieldSchema f getRefName =
        (if f.isList then Schema.arrayOf (Schema.refS ("#/components/@schemas/" ++ f.type))
         else Schema.refS ("#/components/@schemas/" ++ f.type))) ∧
    (f.kind = "object" →
      Variant.fieldSchema f getRefName =
        (if f.isList then Schema.arrayOf (Schema.refS ("#/components/schemas/" ++ getRefName f.type))
         else Schema.refS ("#/components/schemas/" ++ getRefName f.type)) ∧
      Primary.fieldSchema f getRefName =
        (if f.isList then Schema.arrayOf (Schema.refS ("#/components/@schemas/" ++ getRefName f.type))
         else Schema.refS ("#/components/@schemas/" ++ getRefName f.type))) ∧
    (f.kind ≠ "scalar" → f.kind ≠ "enum" → f.kind ≠ "object" →
      Variant.fieldSchema f getRefName = Schema.typed "object" ∧
      Primary.fieldSchema f getRefName = Schema.typed "object") := by
  refine ⟨fun h => ?_, fun h => ?_, fun h => ?_, fun h1 h2 h3 => ?_⟩ <;>
    simp_all [Variant.fieldSchema, Primary.fieldSchema, fieldSchemaAt]

/-- Witness for C2 exercising all four outcomes at concrete fields. -/
theorem c2_fieldSchema_outcomes_witness :
    Variant.fieldSchema ⟨"n", "scalar", "Int", true, false⟩ getRefName = Schema.typed "integer" ∧
    Variant.fieldSchema ⟨"tags", "enum", "Status", false, true⟩ getRefName =
      Schema.arrayOf (Schema.refS "#/components/schemas/Status") ∧
    Primary.fieldSchema ⟨"owner", "object", "User", false, false⟩ getRefName =
      Schema.refS "#/components/@schemas/GetUserResponse" ∧
    Variant.fieldSchema ⟨"x", "unsupported", "Geo", false, false⟩ getRefName =
      Schema.typed "object" := by
  refine ⟨?_, ?_, ?_, ?_⟩
  · have h := (c2_fieldSchema_outcomes ⟨"n", "scalar", "Int", true, false⟩).1 rfl
    simpa [scalarToSchema] using h.1
  · have h := (c2_fieldSchema_outcomes ⟨"tags", "enum", "Status", false, true⟩).2.1 rfl
    simpa using h.1
  · have h := (c2_fieldSchema_outcomes ⟨"owner", "object", "User", false, false⟩).2.2.1 rfl
    simpa [getRefName] using h.2
  · have h := (c2_fieldSchema_outcomes ⟨"x", "unsupported", "Geo", false, false⟩).2.2.2
      (by decide) (by decide) (by decide)
    exact h.1

theorem insertAssoc_fresh {α : Type} (k : String) (v : α) (l : List (String × α))
    (h : k ∉ keysOf l) : insertAssoc k v l = l ++ [(k, v)] := by
  induction l with
  | nil => rfl
  | cons kv rest ih =>
    obtain ⟨k', v'⟩ := kv
    have hk : k' ≠ k := fun he => h (by simp [keysOf, he])
    have hr : k ∉ keysOf rest := fun hm => h (by
      simp only [keysOf, List.map_cons, List.mem_cons]
      exact Or.inr (by simpa [keysOf] using hm))
    simp [insertAssoc, hk, ih hr]

theorem foldl_insert_fresh {α : Type} (val : DmmfField → α) :
    ∀ (fields : List DmmfField) (ps : List (String × α)),
      (∀ f ∈ fields, f.name ∉ keysOf ps) → (fields.map (·.name)).Nodup →
      fields.foldl (fun a f => insertAssoc f.name (val f) a) ps
        = ps ++ fields.map (fun f => (f.name, val f)) := by
  intro fields
  induction fields with
  | nil => intro ps _ _; simp
  | cons f fs ih =>
    intro ps hfresh hnd
    simp only [List.foldl_cons]
    rw [insertAssoc_fresh f.name (val f) ps (hfresh f (List.mem_cons_self _ _))]
    rw [List.map_cons, List.nodup_cons] at hnd
    rw [ih (ps ++ [(f.name, val f)]) ?_ hnd.2]
    · simp
    · intro f' hf' hmem
      simp only [keysOf, List.map_append, List.mem_append] at hmem
      rcases hmem with hm | hm
      · exact hfresh f' (List.mem_cons_of_mem _ hf') hm
      · simp only [List.map_cons, List.map_nil, List.mem_singleton] at hm
        exact hnd.1 (hm ▸ List.mem_map_of_mem (·.name) hf')

/-- Claim C3: for every model (with distinct field names, as the DMMF
guarantees), the read schema is an object with exactly one property per field
in declaration order, each produced by the field mapper, and a `required`
list holding exactly the required field names in declaration order — the
`required` key being entirely absent when no field is required.  Stated over
`modelToGetSchemaAt`, which both variants instantiate. -/
theorem c3_modelToGetSchema_shape (base : String) (m : DmmfModel) (g : String → String)
    (hnd : (m.fields.map (·.name)).Nodup) :
    (modelToGetSchemaAt base m g).type = some "object" ∧
    (modelToGetSchemaAt base m g).properties =
      some (m.fields.map (fun f => (f.name, fieldSchemaAt base f g))) ∧
    (modelToGetSchemaAt base m g).required =
      (if (m.fields.filter (·.isRequired)).map (·.name) = [] then none
       else some ((m.fields.filter (·.isRequired)).map (·.name))) := by
  simp only [modelToGetSchemaAt]
  rw [modelFold_split]
  simp only [Schema.type, Schema.properties, Schema.required, List.nil_append]
  refine ⟨by trivial, ?_, ?_⟩
  · rw [foldl_insert_fresh (fun f => fieldSchemaAt base f g) m.fields [] (by simp [keysOf]) hnd]
    simp
  · rcases hcase : (m.fields.filter (·.isRequired)).map (·.name) with _ | ⟨a, l⟩ <;>
      simp [hcase]

/-- Witness for C3 at the spec's worked example model. -/
theorem c3_modelToGetSchema_shape_witness :
    ((specModel.fields.map (·.name)).Nodup) ∧
    (modelToGetSchemaAt "#/components/schemas/" specModel getRefName).properties =
      some [("id", Schema.typed "string"),
            ("tag", Schema.refS "#/components/schemas/Status"),
            ("owner", Schema.refS "#/components/schemas/GetUserResponse")] ∧
    (modelToGetSchemaAt "#/components/schemas/" specModel getRefName).required =
      some ["id"] := by
  have h := c3_modelToGetSchema_shape "#/components/schemas/" specModel getRefName (by decide)
  exact ⟨by decide, h.2.1.trans rfl, h.2.2.trans rfl⟩

/-- Claim C4: for every model, read schema (any schema carrying a
`properties` object, which every read schema does) and omit-set, the write
schema produced by `stripWriteFields` is the read schema with exactly the
properties named in the omit-set or naming a relation (`object`-kind) field
removed, the `required` list filtered to drop exactly those names (the key
deleted when the filtered list is empty), and every other key unchanged.
The input schema itself is untouched: the function operates on a deep copy,
which in this embedding of immutable data is the identity. -/
theorem c4_stripWriteFields_spec (m : DmmfModel) (omitSet : List String) (s : Schema)
    (ps : List (String × Schema)) (hps : s.properties = some ps) :
    (∃ ps', (stripWriteFields m s omitSet).properties = some ps' ∧
      ps' = ps.filter (fun kv => ¬(omitSet.contains kv.1 ∨
        ((m.fields.filter (fun fl => fl.kind = "object")).map (·.name)).contains kv.1)) ∧
      ∀ kv, kv ∈ ps' ↔ kv ∈ ps ∧ kv.1 ∉ omitSet ∧
        ∀ f ∈ m.fields, f.kind = "object" → kv.1 ≠ f.name) ∧
    ((stripWriteFields m s omitSet).required = match s.required with
      | none => none
      | some rs =>
        if rs.filter (fun k => ¬ omitSet.contains k ∧
            ¬ ((m.fields.filter (fun fl => fl.kind = "object")).map (·.name)).contains k) = []
        then none
        else some (rs.filter (fun k => ¬ omitSet.contains k ∧
            ¬ ((m.fields.filter (fun fl => fl.kind = "object")).map (·.name)).contains k))) ∧
    (stripWriteFields m s omitSet).type = s.type ∧
    (stripWriteFields m s omitSet).format = s.format ∧
    (stripWriteFields m s omitSet).items = s.items ∧
    (stripWriteFields m s omitSet).enumVals = s.enumVals ∧
    (stripWriteFields m s omitSet).exampleVal = s.exampleVal ∧
    (stripWriteFields m s omitSet).ref = s.ref ∧
    (stripWriteFields m s omitSet).allOf = s.allOf := by
  obtain ⟨t, fm, req, props, its, en, ex, r, ao⟩ := s
  simp only [Schema.properties] at hps
  subst hps
  refine ⟨⟨_, by simp [stripWriteFields, Schema.properties], rfl, ?_⟩, ?_, ?_, ?_, ?_, ?_, ?_, ?_, ?_⟩
  · intro kv
    constructor
    · intro hkv
      rw [List.mem_filter] at hkv
      obtain ⟨hmem, hp⟩ := hkv
      simp only [decide_eq_true_eq, not_or] at hp
      refine ⟨hmem, ?_, ?_⟩
      · intro hin
        exact hp.1 (by simpa [List.contains] using List.elem_eq_true_of_mem hin)
      · intro f hf hkind heq
        apply hp.2
        have hmm : kv.1 ∈ (m.fields.filter (fun fl => fl.kind = "object")).map (·.name) :=
          List.mem_map.mpr ⟨f, List.mem_filter.mpr ⟨hf, by simp [hkind]⟩, heq.symm⟩
        simpa [List.contains] using List.elem_eq_true_of_mem hmm
    · rintro ⟨hmem, hno, hnr⟩
      rw [List.mem_filter]
      refine ⟨hmem, ?_⟩
      simp only [decide_eq_true_eq, not_or]
      constructor
      · intro hc
        exact hno (by simpa [List.contains] using hc)
      · intro hc
        have hmm : kv.1 ∈ (m.fields.filter (fun fl => fl.kind = "object")).map (·.name) := by
          simpa [List.contains] using hc
        obtain ⟨f, hfmem, hfname⟩ := List.mem_map.mp hmm
        rw [List.mem_filter] at hfmem
        exact hnr f hfmem.1 (by simpa using hfmem.2) hfname.symm
  · cases req with
    | none => simp [stripWriteFields, Schema.required]
    | some rs => simp [stripWriteFields, Schema.required, List.length_eq_zero]
  · simp [stripWriteFields, Schema.type]
  · simp [stripWriteFields, Schema.format]
  · simp [stripWriteFields, Schema.items]
  · simp [stripWriteFields, Schema.enumVals]
  · simp [stripWriteFields, Schema.exampleVal]
  · simp [stripWriteFields, Schema.ref]
  · simp [stripWriteFields, Schema.allOf]

/-- Witness for C4 at the spec's worked example with omit-set `{id}`:
`owner` (a relation) and `id` (omitted) are removed and `required` becomes
absent. -/
theorem c4_stripWriteFields_spec_witness :
    (modelToGetSchemaAt "#/components/schemas/" specModel getRefName).properties =
      some [("id", Schema.typed "string"),
            ("tag", Schema.refS "#/components/schemas/Status"),
            ("owner", Schema.refS "#/components/schemas/GetUserResponse")] ∧
    (stripWriteFields specModel
        (modelToGetSchemaAt "#/components/schemas/" specModel getRefName) ["id"]).properties =
      some [("tag", Schema.refS "#/components/schemas/Status")] ∧
    (stripWriteFields specModel
        (modelToGetSchemaAt "#/components/schemas/" specModel getRefName) ["id"]).required =
      none := by
  have h := c4_stripWriteFields_spec specModel ["id"]
    (modelToGetSchemaAt "#/components/schemas/" specModel getRefName)
    [("id", Schema.typed "string"),
     ("tag", Schema.refS "#/components/schemas/Status"),
     ("owner", Schema.refS "#/components/schemas/GetUserResponse")] rfl
  obtain ⟨⟨ps', hps', hflt, _⟩, hreq, _⟩ := h
  refine ⟨rfl, ?_, hreq.trans rfl⟩
  rw [hps', hflt]
  rfl

/-- Claim C7: each model's four schemas are stored under exactly the names
`Get<M>Response`, `Post<M>Request`, `Put<M>Request` and
`List<Pluralize(M)>Response` in both variants, where `pluralize` appends
`"es"` exactly when the name ends in the character `'s'` and `"s"`
otherwise. -/
theorem c7_schema_names (dmmf : Dmmf) (m : DmmfModel) (omitSet : List String)
    (hm : m ∈ dmmf.datamodel.models) :
    (("Get" ++ m.name ++ "Response") ∈ keysOf (Variant.buildSchemasFromDmmf dmmf) ∧
     ("Post" ++ m.name ++ "Request") ∈ keysOf (Variant.buildSchemasFromDmmf dmmf) ∧
     ("Put" ++ m.name ++ "Request") ∈ keysOf (Variant.buildSchemasFromDmmf dmmf) ∧
     ("List" ++ pluralize m.name ++ "Response") ∈ keysOf (Variant.buildSchemasFromDmmf dmmf)) ∧
    (("Get" ++ m.name ++ "Response") ∈ keysOf (Primary.buildSchemas omitSet dmmf) ∧
     ("Post" ++ m.name ++ "Request") ∈ keysOf (Primary.buildSchemas omitSet dmmf) ∧
     ("Put" ++ m.name ++ "Request") ∈ keysOf (Primary.buildSchemas omitSet dmmf) ∧
     ("List" ++ pluralize m.name ++ "Response") ∈ keysOf (Primary.buildSchemas omitSet dmmf)) ∧
    (∀ n : String, endsWithS n = true → pluralize n = n ++ "es") ∧
    (∀ n : String, endsWithS n = false → pluralize n = n ++ "s") ∧
    pluralize "Tag" = "Tags" ∧ pluralize "Status" = "Statuses" :=
  ⟨key_model_names_V dmmf m hm, key_model_names_P omitSet dmmf m hm,
   fun n h => by simp [pluralize, h], fun n h => by simp [pluralize, h],
   by decide, by decide⟩

/-- Witness for C7 at the two-model description exercising both
pluralization branches. -/
theorem c7_schema_names_witness :
    "ListTagsResponse" ∈ keysOf (Variant.buildSchemasFromDmmf demoDmmf) ∧
    "ListStatusesResponse" ∈ keysOf (Variant.buildSchemasFromDmmf demoDmmf) := by
  have h1 := c7_schema_names demoDmmf ⟨"Tag", [⟨"id", "scalar", "String", true, false⟩]⟩ []
    (by decide)
  have h2 := c7_schema_names demoDmmf ⟨"Status", [⟨"name", "scalar", "String", false, false⟩]⟩ []
    (by decide)
  constructor
  · have hk := h1.1.2.2.2
    rwa [show ("List" ++ pluralize "Tag" ++ "Response" : String) = "ListTagsResponse" from rfl]
      at hk
  · have hk := h2.1.2.2.2
    rwa [show ("List" ++ pluralize "Status" ++ "Response" : String) = "ListStatusesResponse"
      from rfl] at hk

/-- Counterexample for C1 as stated: in the primary module
(`src/src/index.ts`) the list schema stored for model `User` has an item
reference of `#/components/@schemas/GetUserResponse` — it is not the
`#/components/schemas/GetUserResponse` the claim demands. -/
theorem c1_list_schema_counterexample :
    ∃ s, lookupA "ListUsersResponse"
        (Primary.buildSchemas Primary.DEFAULT_OMIT_FIELDS userDmmf) = some s ∧
      listItemsRef s = some "#/components/@schemas/GetUserResponse" ∧
      listItemsRef s ≠ some "#/components/schemas/GetUserResponse" := by
  refine ⟨Primary.listResponseSchema "#/components/@schemas/GetUserResponse", rfl, rfl, ?_⟩
  intro h
  rw [show listItemsRef (Primary.listResponseSchema "#/components/@schemas/GetUserResponse")
      = some "#/components/@schemas/GetUserResponse" from rfl] at h
  simp at h

/-- Claim C1 (amended): for every model name, the list schema stored under
`List<Pluralize(M)>Response` is an object with exactly the seven documented
properties, all seven required, whose `items` is an array of a `$ref` to
`Get<M>Response` under the variant's own components path:
`#/components/schemas/` in the later variant and `#/components/@schemas/`
in the primary module (which registers its schemas under the `@schemas`
key). -/
theorem c1_list_schema_shape (m : DmmfModel) (acc : List (String × Schema))
    (omitSet : List String) :
    (lookupA ("List" ++ pluralize m.name ++ "Response") (Variant.insertModel acc m) =
      some (Variant.listResponseSchema
        ("#/components/schemas/" ++ ("Get" ++ m.name ++ "Response")))) ∧
    (lookupA ("List" ++ pluralize m.name ++ "Response") (Primary.insertModel omitSet acc m) =
      some (Primary.listResponseSchema
        ("#/components/@schemas/" ++ ("Get" ++ m.name ++ "Response")))) ∧
    (∀ r : String,
      keysOf ((Variant.listResponseSchema r).properties.getD []) =
        ["count", "hasPreviousPage", "hasNextPage", "pageNumber", "pageSize", "totalPages",
         "items"] ∧
      (Variant.listResponseSchema r).required =
        some ["count", "hasPreviousPage", "hasNextPage", "pageNumber", "pageSize", "totalPages",
          "items"] ∧
      (Variant.listResponseSchema r).type = some "object" ∧
      listItemsRef (Variant.listResponseSchema r) = some r ∧
      keysOf ((Primary.listResponseSchema r).properties.getD []) =
        ["count", "hasPreviousPage", "hasNextPage", "pageNumber", "pageSize", "totalPages",
         "items"] ∧
      (Primary.listResponseSchema r).required =
        some ["count", "hasPreviousPage", "hasNextPage", "pageNumber", "pageSize", "totalPages",
          "items"] ∧
      (Primary.listResponseSchema r).type = some "object" ∧
      listItemsRef (Primary.listResponseSchema r) = some r) := by
  refine ⟨?_, ?_, fun r => ⟨rfl, rfl, rfl, rfl, rfl, rfl, rfl, rfl⟩⟩
  · simp only [Variant.insertModel]
    exact lookupA_insertAssoc_self _ _ _
  · simp only [Primary.insertModel]
    exact lookupA_insertAssoc_self _ _ _
